import Mathlib

/-!
Verification development for the slurp SIP message library
(message.go, header.go, invite.go, register.go, errors/errors.go).

The Go source is shallowly embedded: each Go function used by the claims is
translated into an executable Lean definition.  Conventions:

* Go strings are Lean `String`s; the string primitives from Go's `strings`
  package that the source uses (`Split`, `SplitN _ _ 2`, `TrimSpace`,
  `ToLower`, `ToUpper`, `HasPrefix`, `HasSuffix`, `Replace`, `Index`, `Join`)
  are re-implemented below over `List Char` so that every definition reduces
  inside the kernel.  All separators used by the source are single ASCII
  characters, and all inputs of interest are ASCII, so the byte-level /
  rune-level distinctions of Go do not arise.
* A Go runtime panic (out-of-range index on a split result) is modelled by
  `Option`: `none` means the corresponding Go code faults.
* Go `map[string]string` (the `Contact` header) is modelled as an
  insertion-ordered association list.  Go does not specify (and actively
  randomizes) map iteration order, so every renderer that iterates a contact
  map takes an extra argument `ord` producing the iteration order used for
  that render; an order is `Admissible` when it is a permutation of the
  stored entries, which is all Go guarantees.
* Go `int` fields are Lean `Int`; `strconv.ParseInt(s, 10, 32)` is modelled
  with its documented behaviour (syntax error ⇒ value 0, range error ⇒
  clamped value, both with a non-nil error).
-/

namespace Slurp

/-! ## Go string primitives, modelled over `List Char` -/

/-- The whitespace characters `strings.TrimSpace` removes (ASCII fragment). -/
def isSpaceCh (c : Char) : Bool :=
  c = ' ' || c = '\t' || c = '\n' || c = '\r' || c = '\x0b' || c = '\x0c'

/-- Trim ASCII whitespace from both ends, modelling `strings.TrimSpace`. -/
def goTrim (s : String) : String :=
  ⟨((s.toList.dropWhile isSpaceCh).reverse.dropWhile isSpaceCh).reverse⟩

/-- Split a character list at every occurrence of `sep`.
Mirrors `strings.Split` for a one-character separator: the result is never
empty, and splitting the empty string yields `[[]]`. -/
def splitCh (sep : Char) : List Char → List (List Char)
  | [] => [[]]
  | c :: rest =>
    let r := splitCh sep rest
    if c = sep then [] :: r
    else
      match r with
      | [] => [[c]]
      | g :: gs => (c :: g) :: gs

/-- Model of `strings.Split s sep` for a one-character separator. -/
def goSplitC (sep : Char) (s : String) : List String :=
  (splitCh sep s.toList).map fun l => ⟨l⟩

/-- Join a list of strings with a separator, modelling `strings.Join`. -/
def joinWith (sep : String) : List String → String
  | [] => ""
  | [x] => x
  | x :: xs => x ++ sep ++ joinWith sep xs

/-- Model of `strings.Join lines ""`: naive concatenation. -/
def goJoin0 (xs : List String) : String := joinWith "" xs

/-- Model of `strings.SplitN s sep 2` for a one-character separator: split at the
first occurrence only. -/
def goSplitN2C (sep : Char) (s : String) : List String :=
  match goSplitC sep s with
  | [] => [s]
  | [x] => [x]
  | x :: xs => [x, joinWith ⟨[sep]⟩ xs]

/-- ASCII lower-casing of one character (what `strings.ToLower` does on the
ASCII inputs this development concerns). -/
def lowerCh (c : Char) : Char :=
  if 'A' ≤ c && c ≤ 'Z' then Char.ofNat (c.toNat + 32) else c

/-- ASCII upper-casing of one character. -/
def upperCh (c : Char) : Char :=
  if 'a' ≤ c && c ≤ 'z' then Char.ofNat (c.toNat - 32) else c

/-- Model of `strings.ToLower` (ASCII fragment). -/
def goToLower (s : String) : String := ⟨s.toList.map lowerCh⟩

/-- Model of `strings.ToUpper` (ASCII fragment). -/
def goToUpper (s : String) : String := ⟨s.toList.map upperCh⟩

/-- Model of `strings.HasPrefix s pre`. -/
def strStarts (s pre : String) : Bool := pre.toList.isPrefixOf s.toList

/-- Model of `strings.HasSuffix s suf`. -/
def strEnds (s suf : String) : Bool := suf.toList.reverse.isPrefixOf s.toList.reverse

/-- Model of `strings.Replace s old new -1` (replace all) for a one-character `old`. -/
def goReplaceAll (s : String) (old : Char) (new : String) : String :=
  joinWith new (goSplitC old s)

/-- Model of `strings.Replace s old new 1` (replace the first occurrence) for a
one-character `old`. -/
def goReplaceFirst (s : String) (old : Char) (new : String) : String :=
  match goSplitC old s with
  | [] => s
  | [x] => x
  | x :: xs => x ++ new ++ joinWith ⟨[old]⟩ xs

/-- Everything after the first `'@'`, if one occurs.  `none` means the
character does not occur. -/
def dropThruAt : List Char → Option (List Char)
  | [] => none
  | c :: rest => if c = '@' then some rest else dropThruAt rest

/-- The slice `uri[strings.Index(uri, "@")+1:]` as written in `Register.Render`:
`strings.Index` yields the index of the first `'@'`, or `-1` when absent, so
the slice starts right after the first `'@'`, or at 0 (the whole string)
when there is none.  No input makes this fault. -/
def goStripThroughAt (s : String) : String :=
  match dropThruAt s.toList with
  | some rest => ⟨rest⟩
  | none => s

/-! ## Integer and float parsing models -/

/-- Digit-string value: `some` of the value when the list is a non-empty
sequence of decimal digits. -/
def digitsVal : List Char → Option Nat
  | [] => none
  | [c] => if c.isDigit then some (c.toNat - '0'.toNat) else none
  | c :: rest =>
    match digitsVal rest, c.isDigit with
    | some n, true => some ((c.toNat - '0'.toNat) * 10 ^ rest.length + n)
    | _, _ => none

/-- Decimal integer syntax accepted by `strconv.ParseInt(s, 10, _)`:
an optional sign followed by one or more digits. -/
def parseIntRaw (s : String) : Option Int :=
  match s.toList with
  | '+' :: rest => (digitsVal rest).map Int.ofNat
  | '-' :: rest => (digitsVal rest).map fun n => -(n : Int)
  | l => (digitsVal l).map Int.ofNat

/-- Model of `strconv.ParseInt(s, 10, 32)` returning Go's `(value, err == nil)` pair:
syntax errors yield `(0, false)`, out-of-range values yield the clamped
32-bit bound with `false`, and in-range values yield `(v, true)`. -/
def goParseInt32 (s : String) : Int × Bool :=
  match parseIntRaw s with
  | none => (0, false)
  | some v =>
    if v < -(2 ^ 31 : Int) then (-(2 ^ 31 : Int), false)
    else if v > (2 ^ 31 : Int) - 1 then ((2 ^ 31 : Int) - 1, false)
    else (v, true)

/-- Success predicate for `strconv.ParseFloat(s, 32)` on the plain decimal
forms the source can meet (optional sign, digits with at most one decimal
point, at least one digit).  Exponent/hexadecimal/inf forms are outside the
inputs any claim depends on; no claim depends on the parsed value itself,
only on whether parsing succeeds. -/
def goParseFloatOk (s : String) : Bool :=
  let core : List Char :=
    match s.toList with
    | '+' :: r => r
    | '-' :: r => r
    | r => r
  match splitCh '.' core with
  | [a] => !a.isEmpty && a.all Char.isDigit
  | [a, b] => (!a.isEmpty || !b.isEmpty) && a.all Char.isDigit && b.all Char.isDigit
  | _ => false

/-! ## Error taxonomy (errors/errors.go) -/

/-- The three error kinds produced by `validateMethod`.
`unsupportedVersion` carries the version token that `strconv.ParseFloat`
parsed (the source stores the resulting `float32`; the token determines it
and avoids floating point in the model). -/
inductive SipError where
  | invalidMethod (expected actual : String)
  | unsupportedVersion (versionToken : String)
  | invalidFormat (line : String)
  deriving DecidableEq

/-- Returns `true` exactly on the method-mismatch (`InvalidMethodError`) kind. -/
def SipError.isMethodMismatch : SipError → Bool
  | .invalidMethod _ _ => true
  | _ => false

/-- The `HeaderParseError` record: the 0-based offending line index within the header
block and the naive concatenation of every input line. -/
structure HeaderParseError where
  message : String
  line : Nat
  deriving DecidableEq

/-! ## Header data model (header.go, message.go) -/

/-- The `ToFrom` header implementation: fixed value/uri/tag fields. -/
structure ToFrom where
  value : String := ""
  uri : String := ""
  tag : String := ""
  deriving DecidableEq

/-- The `Contact` header implementation, `map[string]string` in Go, modelled
as an insertion-ordered association list; iteration order is abstracted by
the renderer's `ord` argument. -/
abbrev Contact := List (String × String)

/-- Go map assignment `m[k] = v` on the association-list model. -/
def mapSet (m : Contact) (k v : String) : Contact :=
  if m.any fun p => p.1 = k then
    m.map fun p => if p.1 = k then (k, v) else p
  else m ++ [(k, v)]

/-- Go map read `m[k]` (missing keys read as `""`). -/
def mapGet (m : Contact) (k : String) : String :=
  match m.find? fun p => p.1 = k with
  | some p => p.2
  | none => ""

/-- The `CommonHeaders` record.  `To`/`From` are interface-typed in Go and start as
`nil`, hence `Option`; the Go field names `To`, `From`, `Forward` become
`toH`, `fromH`, `forward` (`from` is reserved in Lean). -/
structure CommonHeaders where
  toH : Option ToFrom := none
  fromH : Option ToFrom := none
  contacts : List Contact := []
  forward : Int := 0
  userAgent : String := ""
  contentType : String := ""
  contentLength : Int := 0
  deriving DecidableEq

/-- The `CallControlHeaders` record: `via` entries are `(transport, host)` pairs. -/
structure CallControlHeaders where
  via : List (String × String) := []
  viaBranch : String := ""
  callId : String := ""
  sequence : Int := 0
  authenticate : String := ""
  deriving DecidableEq

/-! ## Validator (message.go, validateMethod) -/

/-- The function `validateMethod` from message.go.  The outer `Option` models the two
reachable Go panics (`strings.Split(line, " ")[2]` and
`strings.Split(proto, "/")[1]`); the inner `Option SipError` is the named
return `err` (`none` = Go `nil`).  Both checks run unconditionally; when the
version check also fails, its error overwrites any method-mismatch error. -/
def validateMethod (line0 method : String) : Option (Option SipError) :=
  let line := goTrim line0
  let err0 : Option SipError :=
    if strStarts (goToUpper line) method then none
    else some (.invalidMethod method ((goSplitC ' ' line).headD ""))
  if strEnds line "SIP/2.0" then some err0
  else
    match (goSplitC ' ' line)[2]? with
    | none => none
    | some proto =>
      match (goSplitC '/' proto)[1]? with
      | none => none
      | some vtok =>
        if goParseFloatOk vtok then some (some (.unsupportedVersion vtok))
        else some (some (.invalidFormat line))

/-! ## From/To sub-parser (message.go, parseFromTo) -/

/-- The function `parseFromTo` from message.go, acting on a `ToFrom` target.  `none`
models the panic on `parts[1]` when the primary part has no `'<'`.  Every
`tag=`-prefixed segment overwrites the tag (the loop has no break), and
other segments are ignored. -/
def parseFromTo (value : String) (t : ToFrom) : Option ToFrom :=
  let params := goSplitC ';' value
  let parts := goSplitC '<' (params.headD "")
  let t1 := { t with value := goTrim (parts.headD "") }
  match parts[1]? with
  | none => none
  | some p1 =>
    let t2 := { t1 with uri := goReplaceFirst p1 '>' "" }
    some (params.tail.foldl
      (fun acc param =>
        if strStarts param "tag=" then
          { acc with tag := ((goSplitN2C '=' param)[1]?).getD "" }
        else acc)
      t2)

/-! ## Header parser (message.go, parseHeaders) -/

/-- One comma-separated entry of a `Contact:` header value, as parsed by the
`case "contact", "m"` branch.  `none` models the panic on `parts[1]` when a
`;`-separated parameter contains no `'='`. -/
def parseContact (each : String) : Option Contact :=
  let parts := goSplitC ';' each
  let nameAndUri := goSplitC '<' (parts.headD "")
  let ct0 : Contact := mapSet [] "_value" (goTrim (nameAndUri.headD ""))
  let ct1 : Contact :=
    match nameAndUri[1]? with
    | some nu => mapSet ct0 "_uri" (goTrim (goReplaceAll nu '>' ""))
    | none => ct0
  parts.tail.foldlM
    (fun ct param =>
      match goSplitN2C '=' param with
      | [k, v] => some (mapSet ct (goToLower k) v)
      | _ => none)
    ct1

/-- The pair of records `parseHeaders` mutates through pointers. -/
structure PHState where
  h : CommonHeaders := {}
  c : CallControlHeaders := {}
  deriving DecidableEq

/-- The dispatch switch of `parseHeaders` on one non-empty trimmed header
line.  `none` models a panic (no colon in the line, a malformed Contact
parameter, a Via value without a host token, a From/To value without `'<'`);
otherwise the `Bool` is `true` when the branch set `err` (the three 32-bit
integer parses are the only error sources) and the new record state is
returned. -/
def dispatchLine (line : String) (st : PHState) : Option (Bool × PHState) :=
  match goSplitN2C ':' line with
  | p0 :: p1 :: _ =>
    let value := goTrim p1
    match goToLower (goTrim p0) with
    | "max-forwards" =>
      let r := goParseInt32 value
      some (!r.2, { st with h := { st.h with forward := r.1 } })
    | "contact" | "m" =>
      match (goSplitC ',' value).mapM parseContact with
      | none => none
      | some cts =>
        some (false, { st with h := { st.h with contacts := st.h.contacts ++ cts } })
    | "content-type" | "c" =>
      some (false, { st with h := { st.h with contentType := value } })
    | "content-length" | "l" =>
      let r := goParseInt32 value
      some (!r.2, { st with h := { st.h with contentLength := r.1 } })
    | "via" | "v" =>
      let via := goSplitN2C ';' value
      let parts := goSplitC ' ' (via.headD "")
      let transport := (goSplitC '/' (parts.headD "")).getLastD ""
      match parts[1]? with
      | none => none
      | some host =>
        some (false, { st with c := { st.c with via := st.c.via ++ [(transport, host)] } })
    | "cseq" =>
      let r := goParseInt32 ((goSplitC ' ' value).headD "")
      some (!r.2, { st with c := { st.c with sequence := r.1 } })
    | "call-id" | "i" =>
      some (false, { st with c := { st.c with callId := value } })
    | "from" | "f" =>
      match parseFromTo value (st.h.fromH.getD {}) with
      | none => none
      | some fr => some (false, { st with h := { st.h with fromH := some fr } })
    | "to" | "t" =>
      match parseFromTo value (st.h.toH.getD {}) with
      | none => none
      | some t2 => some (false, { st with h := { st.h with toH := some t2 } })
    | _ =>
      some (false, st)
  | _ => none

/-- The loop of `parseHeaders` over the header-block lines, carrying the
0-based index `i` and the pre-joined full message text `J` used when
constructing a `HeaderParseError`.  An all-whitespace line breaks the loop;
a dispatch error aborts with `HeaderParseError { message := J, line := i }`
(the mutations made so far persist, the records being passed by pointer). -/
def phGo (J : String) : List String → Nat → PHState → Option (Option HeaderParseError × PHState)
  | [], _, st => some (none, st)
  | l :: rest, i, st =>
    let line := goTrim l
    if line = "" then some (none, st)
    else
      match dispatchLine line st with
      | none => none
      | some (true, st') => some (some { message := J, line := i }, st')
      | some (false, st') => phGo J rest (i + 1) st'

/-- The function `parseHeaders` from message.go: processes `lines[1:]` and reports errors
with the concatenation `strings.Join(lines, "")` of all input lines. -/
def parseHeaders (lines : List String) (h : CommonHeaders) (c : CallControlHeaders) :
    Option (Option HeaderParseError × PHState) :=
  phGo (goJoin0 lines) (lines.drop 1) 0 { h := h, c := c }

/-! ## Header renderer (message.go, renderHeaders) -/

/-- The `ParamString` rendering of a contact, given the entry sequence in the order the
Go map iteration produced it: emits `"; k=v"` for every key not starting
with `"_"`. -/
def paramStringOn (entries : List (String × String)) : String :=
  entries.foldl
    (fun acc kv => if strStarts kv.1 "_" then acc else acc ++ "; " ++ kv.1 ++ "=" ++ kv.2)
    ""

/-- An iteration-order oracle is admissible when it permutes the stored
entries — the only property Go map iteration guarantees. -/
def Admissible (ord : List (String × String) → List (String × String)) : Prop :=
  ∀ l, (ord l).Perm l

/-- One rendered `Contact:` line:
`"Contact: " + Join([value, "<uri>"], " ") + ParamString`. -/
def renderContactLine (ord : List (String × String) → List (String × String))
    (m : Contact) : String :=
  "Contact: " ++ joinWith " " [mapGet m "_value", "<" ++ mapGet m "_uri" ++ ">"]
    ++ paramStringOn (ord m)

/-- The contact synthesized by the fallback
`NewHeader(&Contact{}).SetUri(h.From.Uri()).SetValue(h.From.Value())`. -/
def contactFromFrom (fr : ToFrom) : Contact :=
  mapSet (mapSet [] "_uri" fr.uri) "_value" fr.value

/-- The function `renderHeaders` from message.go, producing the line list before the
final `strings.Join(lines, "\r\n")`.  `none` models the panics on `c.Via[0]`
(empty Via) and on calling through a `nil` `From`/`To` interface. -/
def renderHeaderLines (ord : List (String × String) → List (String × String))
    (h : CommonHeaders) (c : CallControlHeaders) : Option (List String) :=
  match c.via, h.fromH, h.toH with
  | v0 :: _, some fr, some tov =>
    let viaLine := "Via: SIP/2.0/" ++ v0.1 ++ " " ++ v0.2 ++ ";branch=" ++ c.viaBranch
    let fwd : Int := if h.forward = 0 then 70 else h.forward
    let fwdLine := "Max-Forwards: " ++ toString fwd
    let fromLine := "From: " ++ fr.value ++ " <" ++ fr.uri ++ ">;tag=" ++ fr.tag
    let toLine0 := "To: " ++ tov.value ++ " <" ++ tov.uri ++ ">"
    let toLine := if tov.tag ≠ "" then toLine0 ++ ";tag=" ++ tov.tag else toLine0
    let contacts := if h.contacts = [] then [contactFromFrom fr] else h.contacts
    let lines1 := contacts.foldl
      (fun acc ct => acc ++ [renderContactLine ord ct])
      [viaLine, fwdLine, fromLine, toLine]
    let lines2 := lines1 ++ ["Call-ID: " ++ c.callId]
    some (if h.contentType ≠ "" then
        lines2 ++ ["Content-Type: " ++ h.contentType,
                   "Content-Length: " ++ toString h.contentLength]
      else lines2)
  | _, _, _ => none

/-- The function `renderHeaders` proper: the joined header block. -/
def renderHeaders (ord : List (String × String) → List (String × String))
    (h : CommonHeaders) (c : CallControlHeaders) : Option String :=
  (renderHeaderLines ord h c).map (joinWith "\r\n")

/-! ## Message variants (invite.go, register.go) -/

/-- The `Invite` struct. -/
structure Invite where
  headers : CommonHeaders := {}
  control : CallControlHeaders := {}
  raw : String := ""
  payload : String := ""
  uri : String := ""
  deriving DecidableEq

/-- The `Register` struct. -/
structure Register where
  headers : CommonHeaders := {}
  control : CallControlHeaders := {}
  payload : String := ""
  uri : String := ""
  deriving DecidableEq

/-- The method `Invite.Render`: request line from the To URI, then the rendered header
block, `CSeq`, `Supported`, and a blank-line terminator.  The receiver is
returned unchanged — `renderHeaders` receives the records by value. -/
def Invite.Render (ord : List (String × String) → List (String × String))
    (i : Invite) : Option (String × Invite) :=
  match i.headers.toH with
  | none => none
  | some tov =>
    (renderHeaders ord i.headers i.control).map fun body =>
      ("INVITE sip:" ++ tov.uri ++ " SIP/2.0\r\n" ++ body ++ "\r\n" ++
        "CSeq: " ++ toString i.control.sequence ++ " INVITE" ++ "\r\n" ++
        "Supported: SUBSCRIBE, NOTIFY" ++ "\r\n\r\n",
       i)

/-- The method `Register.Render`: like `Invite.Render` but the request-target is the To
URI with everything up to and including the first `'@'` stripped, and that
derived target is stored back into the receiver's `uri` field. -/
def Register.Render (ord : List (String × String) → List (String × String))
    (r : Register) : Option (String × Register) :=
  match r.headers.toH with
  | none => none
  | some tov =>
    let uri := goStripThroughAt tov.uri
    (renderHeaders ord r.headers r.control).map fun body =>
      ("REGISTER sip:" ++ uri ++ " SIP/2.0\r\n" ++ body ++ "\r\n" ++
        "CSeq: " ++ toString r.control.sequence ++ " REGISTER" ++ "\r\n" ++
        "Supported: SUBSCRIBE, NOTIFY" ++ "\r\n\r\n",
       { r with uri := uri })

/-- The method `Invite.Parse`: validates the request line, stores the request-target,
resets both header records and runs `parseHeaders` over them — whose error
return the source DISCARDS (the bare call `parseHeaders(lines, …)`), so the
function's result is exactly `validateMethod`'s.  The outer `Option` models
the panics of `validateMethod`, of `strings.Split(lines[0], " ")[1]`, and of
`parseHeaders`. -/
def Invite.Parse (msg : String) (i : Invite) : Option (Option SipError × Invite) := do
  let lines := goSplitC '\n' msg
  let errv ← validateMethod (lines.headD "") "INVITE"
  let uri ← (goSplitC ' ' (lines.headD ""))[1]?
  let r ← parseHeaders lines {} {}
  some (errv, { i with uri := uri, headers := r.2.h, control := r.2.c })

/-- The method `Register.Parse`: same shape as `Invite.Parse` with method `REGISTER`;
the `parseHeaders` error is likewise discarded. -/
def Register.Parse (msg : String) (r : Register) : Option (Option SipError × Register) := do
  let lines := goSplitC '\n' msg
  let errv ← validateMethod (lines.headD "") "REGISTER"
  let uri ← (goSplitC ' ' (lines.headD ""))[1]?
  let pr ← parseHeaders lines {} {}
  some (errv, { r with uri := uri, headers := pr.2.h, control := pr.2.c })

/-! ## Generic helper lemmas -/

theorem foldl_append_singleton {α β : Type} (f : α → β) :
    ∀ (cs : List α) (init : List β),
      cs.foldl (fun acc x => acc ++ [f x]) init = init ++ cs.map f
  | [], init => by simp
  | c :: cs, init => by
    simp only [List.foldl_cons, List.map_cons]
    rw [foldl_append_singleton f cs (init ++ [f c])]
    simp

theorem perm_eq_of_length_le_one {α : Type} {l m : List α}
    (h : l.Perm m) (hm : m.length ≤ 1) : l = m := by
  match m, hm with
  | [], _ => exact h.eq_nil
  | [a], _ => exact List.perm_singleton.mp h

theorem strStarts_append (s t : String) : strStarts (s ++ t) s = true := by
  simp only [strStarts, String.toList, String.data_append]
  exact List.isPrefixOf_iff_prefix.mpr ⟨t.data, rfl⟩

theorem strStarts_of_eq_append (s a b : String) (h : s = a ++ b) :
    strStarts s a = true := by
  rw [h]
  exact strStarts_append a b

/-! ## Lemmas about `dropThruAt` (the Register request-target slice) -/

theorem dropThruAt_of_not_mem : ∀ (l : List Char), '@' ∉ l → dropThruAt l = none
  | [], _ => rfl
  | c :: rest, h => by
    have hc : ¬ c = '@' := fun hc => h (hc ▸ List.mem_cons_self c rest)
    have : '@' ∉ rest := fun hr => h (List.mem_cons_of_mem c hr)
    simp [dropThruAt, hc, dropThruAt_of_not_mem rest this]

theorem dropThruAt_append_at : ∀ (pre post : List Char), '@' ∉ pre →
    dropThruAt (pre ++ '@' :: post) = some post
  | [], post, _ => by simp [dropThruAt]
  | c :: pre, post, h => by
    have hc : ¬ c = '@' := fun hc => h (hc ▸ List.mem_cons_self c pre)
    have : '@' ∉ pre := fun hr => h (List.mem_cons_of_mem c hr)
    simp [dropThruAt, hc, dropThruAt_append_at pre post this]

theorem goStripThroughAt_of_no_at (s : String) (h : '@' ∉ s.toList) :
    goStripThroughAt s = s := by
  unfold goStripThroughAt
  rw [dropThruAt_of_not_mem s.toList h]

theorem goStripThroughAt_of_split (s : String) (pre post : List Char)
    (hpre : '@' ∉ pre) (hs : s.toList = pre ++ '@' :: post) :
    goStripThroughAt s = ⟨post⟩ := by
  unfold goStripThroughAt
  rw [hs, dropThruAt_append_at pre post hpre]

/-! ## Lemmas about `paramStringOn` and iteration orders -/

theorem paramStringOn_eq_filter (l : List (String × String)) :
    paramStringOn l =
      (l.filter fun kv => !(strStarts kv.1 "_")).foldl
        (fun acc kv => acc ++ "; " ++ kv.1 ++ "=" ++ kv.2) "" := by
  simp only [paramStringOn]
  generalize ("" : String) = acc
  induction l generalizing acc with
  | nil => rfl
  | cons kv rest ih =>
    by_cases h : strStarts kv.1 "_" = true
    · simp [List.filter_cons, h, ih]
    · simp only [Bool.not_eq_true] at h
      simp [List.filter_cons, h, ih]

theorem paramStringOn_all_reserved (l : List (String × String))
    (h : ∀ kv ∈ l, strStarts kv.1 "_" = true) : paramStringOn l = "" := by
  rw [paramStringOn_eq_filter]
  have : l.filter (fun kv => !(strStarts kv.1 "_")) = [] := by
    rw [List.filter_eq_nil_iff]
    intro kv hkv
    simp [h kv hkv]
  rw [this]
  rfl

theorem paramStringOn_perm_small {l l1 l2 : List (String × String)}
    (h1 : l1.Perm l) (h2 : l2.Perm l)
    (hsmall : (l.filter fun kv => !(strStarts kv.1 "_")).length ≤ 1) :
    paramStringOn l1 = paramStringOn l2 := by
  rw [paramStringOn_eq_filter, paramStringOn_eq_filter]
  have e1 : l1.filter (fun kv => !(strStarts kv.1 "_")) = l.filter (fun kv => !(strStarts kv.1 "_")) :=
    perm_eq_of_length_le_one (h1.filter _) hsmall
  have e2 : l2.filter (fun kv => !(strStarts kv.1 "_")) = l.filter (fun kv => !(strStarts kv.1 "_")) :=
    perm_eq_of_length_le_one (h2.filter _) hsmall
  rw [e1, e2]

/-! ## Structure of the rendered header block -/

/-- The exact line list `renderHeaders` produces when its preconditions
(at least one Via, From and To populated) hold. -/
theorem renderHeaderLines_shape (ord : List (String × String) → List (String × String))
    (h : CommonHeaders) (c : CallControlHeaders)
    (v0 : String × String) (vrest : List (String × String)) (fr tov : ToFrom)
    (hv : c.via = v0 :: vrest) (hf : h.fromH = some fr) (ht : h.toH = some tov) :
    renderHeaderLines ord h c = some
      (["Via: SIP/2.0/" ++ v0.1 ++ " " ++ v0.2 ++ ";branch=" ++ c.viaBranch,
        "Max-Forwards: " ++ toString (if h.forward = 0 then (70 : Int) else h.forward),
        "From: " ++ fr.value ++ " <" ++ fr.uri ++ ">;tag=" ++ fr.tag,
        if tov.tag ≠ "" then
          "To: " ++ tov.value ++ " <" ++ tov.uri ++ ">" ++ ";tag=" ++ tov.tag
        else "To: " ++ tov.value ++ " <" ++ tov.uri ++ ">"]
       ++ (if h.contacts = [] then [contactFromFrom fr] else h.contacts).map
            (renderContactLine ord)
       ++ ["Call-ID: " ++ c.callId]
       ++ (if h.contentType ≠ "" then
             ["Content-Type: " ++ h.contentType,
              "Content-Length: " ++ toString h.contentLength]
           else [])) := by
  simp only [renderHeaderLines, hv, hf, ht]
  rw [foldl_append_singleton]
  by_cases htag : tov.tag = ""
  · by_cases hct : h.contentType = "" <;> simp [htag, hct, List.append_assoc]
  · by_cases hct : h.contentType = "" <;> simp [htag, hct, List.append_assoc]

/-! ## Line classification for the header parser -/

theorem parseFromTo_isSome (value : String) (t t' : ToFrom) :
    (parseFromTo value t).isSome = (parseFromTo value t').isSome := by
  simp only [parseFromTo]
  cases h : (goSplitC '<' ((goSplitC ';' value).headD ""))[1]? <;> simp [h]

/-- Whether a dispatched line panics, and whether it sets the error flag,
depend only on the line, never on the record state. -/
theorem dispatchLine_fst_const (line : String) (st st' : PHState) :
    (dispatchLine line st).map Prod.fst = (dispatchLine line st').map Prod.fst := by
  unfold dispatchLine
  cases goSplitN2C ':' line with
  | nil => rfl
  | cons p0 tl =>
    cases tl with
    | nil => rfl
    | cons p1 rest =>
      simp only
      split
      all_goals first
        | rfl
        | ((cases hm : (goSplitC ',' (goTrim p1)).mapM parseContact <;> simp [hm]) <;> done)
        | ((cases hv : (goSplitC ' ' ((goSplitN2C ';' (goTrim p1)).headD ""))[1]? <;> simp [hv]) <;>
            done)
        | ((have hiso := parseFromTo_isSome (goTrim p1) (st.h.fromH.getD {}) (st'.h.fromH.getD {})
            cases hf : parseFromTo (goTrim p1) (st.h.fromH.getD {}) <;>
              cases hf' : parseFromTo (goTrim p1) (st'.h.fromH.getD {}) <;>
              rw [hf, hf'] at hiso <;> simp_all) <;> done)
        | ((have hiso := parseFromTo_isSome (goTrim p1) (st.h.toH.getD {}) (st'.h.toH.getD {})
            cases hf : parseFromTo (goTrim p1) (st.h.toH.getD {}) <;>
              cases hf' : parseFromTo (goTrim p1) (st'.h.toH.getD {}) <;>
              rw [hf, hf'] at hiso <;> simp_all) <;> done)

/-- State-independent classification of one raw header line: terminates the
block, dispatches cleanly, sets the error flag (an integer-parse failure —
the only error source in this version of the parser), or panics. -/
inductive LineClass where
  | blank
  | good
  | bad
  | panics
  deriving DecidableEq

/-- Classify a line by dispatching it against empty records (legitimate by
`dispatchLine_fst_const`). -/
def lineClass (l : String) : LineClass :=
  if goTrim l = "" then .blank
  else
    match dispatchLine (goTrim l) {} with
    | none => .panics
    | some (true, _) => .bad
    | some (false, _) => .good

theorem lineClass_bad_elim {l : String} (h : lineClass l = .bad) (st : PHState) :
    goTrim l ≠ "" ∧ ∃ st', dispatchLine (goTrim l) st = some (true, st') := by
  unfold lineClass at h
  by_cases hb : goTrim l = ""
  · simp [hb] at h
  refine ⟨hb, ?_⟩
  simp only [hb, if_false] at h
  have hc := dispatchLine_fst_const (goTrim l) st {}
  cases h0 : dispatchLine (goTrim l) {} with
  | none => rw [h0] at h; exact absurd h (by simp)
  | some p =>
    rw [h0] at h hc
    match p, h, hc with
    | (true, s0), _, hc =>
      cases hd : dispatchLine (goTrim l) st with
      | none => rw [hd] at hc; simp at hc
      | some q =>
        rw [hd] at hc
        simp at hc
        exact ⟨q.2, by cases q; simp_all⟩

theorem lineClass_good_elim {l : String} (h : lineClass l = .good) (st : PHState) :
    goTrim l ≠ "" ∧ ∃ st', dispatchLine (goTrim l) st = some (false, st') := by
  unfold lineClass at h
  by_cases hb : goTrim l = ""
  · simp [hb] at h
  refine ⟨hb, ?_⟩
  simp only [hb, if_false] at h
  have hc := dispatchLine_fst_const (goTrim l) st {}
  cases h0 : dispatchLine (goTrim l) {} with
  | none => rw [h0] at h; exact absurd h (by simp)
  | some p =>
    rw [h0] at h hc
    match p, h, hc with
    | (false, s0), _, hc =>
      cases hd : dispatchLine (goTrim l) st with
      | none => rw [hd] at hc; simp at hc
      | some q =>
        rw [hd] at hc
        simp at hc
        exact ⟨q.2, by cases q; simp_all⟩

/-- If every line before index `k` of the header block dispatches cleanly
and line `k` is the first to fail an integer parse, the loop stops there
and reports index `i + k` with the pre-joined message text. -/
theorem phGo_first_error (J : String) :
    ∀ (body : List String) (k i : Nat) (st : PHState),
      k < body.length → lineClass (body.getD k "") = .bad →
      (∀ j, j < k → lineClass (body.getD j "") = .good) →
      ∃ st', phGo J body i st = some (some { message := J, line := i + k }, st')
  | [], k, _, _, hk, _, _ => absurd hk (by simp)
  | l :: rest, 0, i, st, _, hbad, _ => by
    simp only [List.getD_cons_zero] at hbad
    obtain ⟨hne, st', hd⟩ := lineClass_bad_elim hbad st
    refine ⟨st', ?_⟩
    simp [phGo, hne, hd]
  | l :: rest, k + 1, i, st, hk, hbad, hgood => by
    have h0 : lineClass l = .good := by
      have := hgood 0 (Nat.succ_pos k)
      simpa using this
    obtain ⟨hne, st', hd⟩ := lineClass_good_elim h0 st
    have hrest : ∃ st'', phGo J rest (i + 1) st' =
        some (some { message := J, line := (i + 1) + k }, st'') := by
      refine phGo_first_error J rest k (i + 1) st' (by simpa using hk) ?_ ?_
      · simpa using hbad
      · intro j hj
        have := hgood (j + 1) (Nat.succ_lt_succ hj)
        simpa using this
    obtain ⟨st'', hr⟩ := hrest
    refine ⟨st'', ?_⟩
    have harith : i + 1 + k = i + (k + 1) := by omega
    rw [harith] at hr
    simp [phGo, hne, hd, hr]

/-! ## Render output and iteration order -/

/-- The synthesized fallback contact stores only the two reserved keys. -/
theorem contactFromFrom_filter (fr : ToFrom) :
    (contactFromFrom fr).filter (fun kv => !(strStarts kv.1 "_")) = [] := rfl

/-- Every contact of the list has at most one non-reserved parameter. -/
def SmallParams (contacts : List Contact) : Prop :=
  ∀ m ∈ contacts, ((m.filter fun kv => !(strStarts kv.1 "_")).length ≤ 1)

theorem renderContactLine_ord_eq {ord1 ord2 : List (String × String) → List (String × String)}
    (h1 : Admissible ord1) (h2 : Admissible ord2) (m : Contact)
    (hm : ((m.filter fun kv => !(strStarts kv.1 "_")).length ≤ 1)) :
    renderContactLine ord1 m = renderContactLine ord2 m := by
  unfold renderContactLine
  rw [paramStringOn_perm_small (h1 m) (h2 m) hm]

theorem renderHeaderLines_ord_eq {ord1 ord2 : List (String × String) → List (String × String)}
    (h1 : Admissible ord1) (h2 : Admissible ord2)
    (h : CommonHeaders) (c : CallControlHeaders) (hsmall : SmallParams h.contacts) :
    renderHeaderLines ord1 h c = renderHeaderLines ord2 h c := by
  cases hv : c.via with
  | nil => unfold renderHeaderLines; rw [hv]
  | cons v0 vrest =>
    cases hf : h.fromH with
    | none => unfold renderHeaderLines; rw [hv, hf]
    | some fr =>
      cases ht : h.toH with
      | none => unfold renderHeaderLines; rw [hv, hf, ht]
      | some tov =>
        rw [renderHeaderLines_shape ord1 h c v0 vrest fr tov hv hf ht,
            renderHeaderLines_shape ord2 h c v0 vrest fr tov hv hf ht]
        by_cases hc0 : h.contacts = []
        · have hsm : (((contactFromFrom fr).filter fun kv => !(strStarts kv.1 "_")).length ≤ 1) := by
            rw [contactFromFrom_filter]
            simp
          simp [hc0, renderContactLine_ord_eq h1 h2 _ hsm]
        · have : (h.contacts.map (renderContactLine ord1)) =
              (h.contacts.map (renderContactLine ord2)) := by
            apply List.map_congr_left
            intro m hmem
            exact renderContactLine_ord_eq h1 h2 m (hsmall m hmem)
          simp [hc0, this]

theorem renderHeaders_ord_eq {ord1 ord2 : List (String × String) → List (String × String)}
    (h1 : Admissible ord1) (h2 : Admissible ord2)
    (h : CommonHeaders) (c : CallControlHeaders) (hsmall : SmallParams h.contacts) :
    renderHeaders ord1 h c = renderHeaders ord2 h c := by
  unfold renderHeaders
  rw [renderHeaderLines_ord_eq h1 h2 h c hsmall]

/-! ## Claims -/

/-- C1: the claim says header-parse errors reach the caller of
`Invite.Parse` / `Register.Parse`.  The source discards the return value of
`parseHeaders` in both (invite.go line 41, register.go line 44), so on a
message whose header block fails an integer parse, `parseHeaders` produces
a `HeaderParseError`, yet both `Parse` implementations return `nil` (here
`some (none, …)`): the error is lost. -/
theorem parse_discards_header_error :
    Invite.Parse "INVITE sip:x SIP/2.0\nMax-Forwards: abc\n\n" {} =
      some (none, { uri := "sip:x" }) ∧
    (parseHeaders (goSplitC '\n' "INVITE sip:x SIP/2.0\nMax-Forwards: abc\n\n") {} {}).map
        Prod.fst =
      some (some { message := "INVITE sip:x SIP/2.0Max-Forwards: abc", line := 0 }) ∧
    Register.Parse "REGISTER sip:y SIP/2.0\nMax-Forwards: abc\n\n" {} =
      some (none, { uri := "sip:y" }) ∧
    (parseHeaders (goSplitC '\n' "REGISTER sip:y SIP/2.0\nMax-Forwards: abc\n\n") {} {}).map
        Prod.fst =
      some (some { message := "REGISTER sip:y SIP/2.0Max-Forwards: abc", line := 0 }) := by
  refine ⟨?_, ?_, ?_, ?_⟩ <;> decide

/-- C2 counterexample: on a request line failing BOTH the method check and
the version check, the returned error is the version error, not the claimed
method-mismatch (the later check overwrites `err`). -/
theorem validateMethod_both_fail_cex :
    strStarts (goToUpper (goTrim "FOO sip:x SIP/3.0")) "INVITE" = false ∧
    strEnds (goTrim "FOO sip:x SIP/3.0") "SIP/2.0" = false ∧
    validateMethod "FOO sip:x SIP/3.0" "INVITE" =
      some (some (.unsupportedVersion "3.0")) ∧
    SipError.isMethodMismatch (.unsupportedVersion "3.0") = false := by
  refine ⟨?_, ?_, ?_, ?_⟩ <;> decide

/-- C2 (amended): both checks always run and the method check does not
abort; but when both fail, the version-check's error (unsupported-version
or invalid-format) is the one ultimately returned — never the
method-mismatch, which it overwrites. -/
theorem validateMethod_last_check_wins (line method : String)
    (hm : strStarts (goToUpper (goTrim line)) method = false) :
    (strEnds (goTrim line) "SIP/2.0" = true →
      validateMethod line method =
        some (some (.invalidMethod method ((goSplitC ' ' (goTrim line)).headD "")))) ∧
    (strEnds (goTrim line) "SIP/2.0" = false →
      ∀ r, validateMethod line method = some r →
        ∃ e, r = some e ∧ e.isMethodMismatch = false) := by
  constructor
  · intro hv
    simp [validateMethod, hm, hv]
  · intro hv r hr
    simp only [validateMethod, hm, hv, Bool.false_eq_true, if_false, reduceIte] at hr
    split at hr
    · exact absurd hr (by simp)
    · split at hr
      · exact absurd hr (by simp)
      · split at hr
        · rename_i vtok heqv hfl
          have hre : r = some (SipError.unsupportedVersion vtok) := by simpa using hr.symm
          subst hre
          exact ⟨_, rfl, rfl⟩
        · rename_i vtok heqv hfl
          have hre : r = some (SipError.invalidFormat (goTrim line)) := by simpa using hr.symm
          subst hre
          exact ⟨_, rfl, rfl⟩

/-- C2 witness: the amended theorem applied at the concrete both-fail
input. -/
theorem validateMethod_last_check_wins_witness :
    validateMethod "FOO sip:y SIP/3.0" "INVITE" =
      some (some (SipError.unsupportedVersion "3.0")) ∧
    SipError.isMethodMismatch (.unsupportedVersion "3.0") = false ∧
    SipError.isMethodMismatch (.invalidMethod "INVITE" "FOO") = true := by
  obtain ⟨e, he, hne⟩ :=
    (validateMethod_last_check_wins "FOO sip:y SIP/3.0" "INVITE" (by decide)).2
      (by decide) (some (.unsupportedVersion "3.0")) (by decide)
  refine ⟨by decide, ?_, by decide⟩
  have : e = SipError.unsupportedVersion "3.0" := by
    cases he
    rfl
  rw [← this]
  exact hne

/-- C3 counterexample: the request line's leading token `INVITES` differs
from the expected method `INVITE`, yet `validateMethod` returns no error —
the check is `strings.HasPrefix` on the whole upper-cased line, so a token
that strictly extends the method passes. -/
theorem validateMethod_extended_token_cex :
    validateMethod "INVITES sip:x SIP/2.0" "INVITE" = some none ∧
    (goSplitC ' ' "INVITES sip:x SIP/2.0").headD "" ≠ "INVITE" := by
  refine ⟨?_, ?_⟩ <;> decide

/-- C3 (amended): when the version check passes, `validateMethod` reports a
method-mismatch (carrying the expected method and the first space-token as
the actual) exactly when the expected method is NOT a prefix of the
upper-cased trimmed request line — a prefix test on the whole line, not a
token-equality test, so a leading token that strictly extends the method is
accepted. -/
theorem validateMethod_method_check_is_line_prefix_test (line method : String)
    (hv : strEnds (goTrim line) "SIP/2.0" = true) :
    validateMethod line method =
      some (if strStarts (goToUpper (goTrim line)) method then none
        else some (.invalidMethod method ((goSplitC ' ' (goTrim line)).headD ""))) := by
  by_cases hm : strStarts (goToUpper (goTrim line)) method <;>
    simp [validateMethod, hm, hv]

/-- C3 witness: the amended theorem applied at the extended-token input. -/
theorem validateMethod_method_check_is_line_prefix_test_witness :
    validateMethod "INVITES sip:z SIP/2.0" "INVITE" =
      some (if strStarts (goToUpper (goTrim "INVITES sip:z SIP/2.0")) "INVITE" then none
        else some (.invalidMethod "INVITE"
          ((goSplitC ' ' (goTrim "INVITES sip:z SIP/2.0")).headD ""))) :=
  validateMethod_method_check_is_line_prefix_test "INVITES sip:z SIP/2.0" "INVITE" (by decide)

/-- The tag value a `tag=`-prefixed segment contributes: everything after
the first `'='`. -/
def tagValueOf (seg : String) : String := ((goSplitN2C '=' seg)[1]?).getD ""

/-- The parameter loop of `parseFromTo`: the resulting tag is the original
one when no segment matches, and otherwise the value of the LAST matching
segment (every match overwrites). -/
theorem tagFold_spec :
    ∀ (segs : List String) (acc : ToFrom),
      (segs.filter (fun s => strStarts s "tag=") = [] →
        (segs.foldl (fun a param =>
            if strStarts param "tag=" then { a with tag := tagValueOf param } else a)
          acc).tag = acc.tag) ∧
      (∀ lastSeg,
        (segs.filter (fun s => strStarts s "tag=")).getLast? = some lastSeg →
        (segs.foldl (fun a param =>
            if strStarts param "tag=" then { a with tag := tagValueOf param } else a)
          acc).tag = tagValueOf lastSeg)
  | [], acc => by simp
  | s :: rest, acc => by
    by_cases hp : strStarts s "tag=" = true
    · constructor
      · intro hnil
        simp [List.filter_cons, hp] at hnil
      · intro lastSeg hlast
        simp only [List.filter_cons, hp, if_true, List.foldl_cons] at hlast ⊢
        cases hfr : rest.filter (fun s => strStarts s "tag=") with
        | nil =>
          rw [hfr] at hlast
          simp at hlast
          subst hlast
          rw [(tagFold_spec rest { acc with tag := tagValueOf s }).1 hfr]
        | cons a as =>
          rw [hfr] at hlast
          rw [List.getLast?_cons_cons] at hlast
          exact (tagFold_spec rest { acc with tag := tagValueOf s }).2 lastSeg
            (by rw [hfr]; exact hlast)
    · have hp' : strStarts s "tag=" = false := by
        simpa using hp
      constructor
      · intro hnil
        simp only [List.filter_cons, hp', Bool.false_eq_true, if_false] at hnil
        simp only [List.foldl_cons, hp', Bool.false_eq_true, if_false]
        exact (tagFold_spec rest acc).1 hnil
      · intro lastSeg hlast
        simp only [List.filter_cons, hp', Bool.false_eq_true, if_false] at hlast
        simp only [List.foldl_cons, hp', Bool.false_eq_true, if_false]
        exact (tagFold_spec rest acc).2 lastSeg hlast

/-- C4 counterexample: a From/To value with two `tag=` segments.  The first
match is `tag=1`, yet the stored tag is `2` — the loop has no break, so the
LAST match, not the first, determines the stored tag. -/
theorem parseFromTo_two_tags_cex :
    parseFromTo "A <u>;tag=1;tag=2" {} = some { value := "A", uri := "u", tag := "2" } ∧
    ((goSplitC ';' "A <u>;tag=1;tag=2").drop 1).filter (fun s => strStarts s "tag=") =
      ["tag=1", "tag=2"] := by
  refine ⟨?_, ?_⟩ <;> decide

/-- C4 (amended): among the `;`-delimited suffix segments, the LAST one
with prefix `tag=` determines the stored tag parameter (each match
overwrites the previous one); segments without that prefix leave the tag
unchanged. -/
theorem parseFromTo_tag_is_last_match (value : String) (t t' : ToFrom)
    (h : parseFromTo value t = some t') :
    (((goSplitC ';' value).drop 1).filter (fun s => strStarts s "tag=") = [] →
      t'.tag = t.tag) ∧
    (∀ lastSeg,
      (((goSplitC ';' value).drop 1).filter (fun s => strStarts s "tag=")).getLast? =
        some lastSeg →
      t'.tag = tagValueOf lastSeg) := by
  rw [List.drop_one]
  simp only [parseFromTo] at h
  rcases h1 : (goSplitC '<' ((goSplitC ';' value).headD ""))[1]? with - | p1
  · rw [h1] at h
    exact absurd h (by simp)
  · rw [h1] at h
    simp only [Option.some.injEq] at h
    subst h
    have hbase := tagFold_spec ((goSplitC ';' value).tail)
      { { t with value := goTrim ((goSplitC '<' ((goSplitC ';' value).headD "")).headD "") }
          with uri := goReplaceFirst p1 '>' "" }
    constructor
    · intro hnil
      exact hbase.1 hnil
    · intro lastSeg hlast
      exact hbase.2 lastSeg hlast

/-- C4 witness: the amended theorem applied at the two-tag input. -/
theorem parseFromTo_tag_is_last_match_witness :
    (ToFrom.mk "A" "u" "2").tag = tagValueOf "tag=2" := by
  have h := (parseFromTo_tag_is_last_match "A <u>;tag=1;tag=2" {}
      { value := "A", uri := "u", tag := "2" } (by decide)).2 "tag=2" (by decide)
  exact h

/-- Concrete Register whose To URI contains an `'@'`. -/
def regAtExample : Register :=
  { headers :=
      { toH := some { value := "Bob", uri := "sip:bob@biloxi.com" },
        fromH := some { value := "Alice", uri := "sip:a@b", tag := "t1" } },
    control := { via := [("UDP", "h")], viaBranch := "br", callId := "cid", sequence := 2 } }

/-- Concrete Register whose To URI contains no `'@'`. -/
def regNoAtExample : Register :=
  { headers :=
      { toH := some { value := "Bob", uri := "sip:biloxi.com" },
        fromH := some { value := "Alice", uri := "sip:a@b", tag := "t1" } },
    control := { via := [("UDP", "h")], viaBranch := "br", callId := "cid", sequence := 2 } }

/-- C5 counterexample: the claim says a To URI without `'@'` makes the
slice fault.  It does not: `strings.Index` returns `-1`, the slice starts
at byte 0, and `Register.Render` succeeds with the whole URI as
request-target. -/
theorem register_render_no_at_cex :
    '@' ∉ "sip:biloxi.com".toList ∧
    (Register.Render id regNoAtExample).map
        (fun p => (p.2.uri, strStarts p.1 "REGISTER sip:sip:biloxi.com SIP/2.0\r\n")) =
      some ("sip:biloxi.com", true) := by
  refine ⟨?_, ?_⟩ <;> decide

/-- C5 (amended): `Register.Render` derives the request-target by stripping
everything up to and including the first `'@'` of the To URI when one is
present (`sip:bob@biloxi.com` ⇒ `biloxi.com`); when the URI contains no
`'@'` the slice `uri[Index+1:]` degenerates to `uri[0:]` and the whole URI
is used unchanged — no runtime fault occurs. -/
theorem register_render_target_amended
    (ord : List (String × String) → List (String × String))
    (r : Register) (tov : ToFrom) (p : String × Register)
    (hto : r.headers.toH = some tov) (h : Register.Render ord r = some p) :
    strStarts p.1 ("REGISTER sip:" ++ p.2.uri ++ " SIP/2.0\r\n") = true ∧
    (∀ pre post, '@' ∉ pre → tov.uri.toList = pre ++ '@' :: post → p.2.uri = ⟨post⟩) ∧
    ('@' ∉ tov.uri.toList → p.2.uri = tov.uri) := by
  simp only [Register.Render, hto] at h
  rcases hrh : renderHeaders ord r.headers r.control with - | body
  · rw [hrh] at h
    exact absurd h (by simp)
  · rw [hrh] at h
    simp only [Option.map_some', Option.some.injEq] at h
    subst h
    refine ⟨?_, ?_, ?_⟩
    · refine strStarts_of_eq_append _ _
        (body ++ "\r\n" ++ "CSeq: " ++ toString r.control.sequence ++ " REGISTER" ++ "\r\n" ++
          "Supported: SUBSCRIBE, NOTIFY" ++ "\r\n\r\n") ?_
      simp only [String.append_assoc]
    · intro pre post hpre hsplit
      simpa using goStripThroughAt_of_split tov.uri pre post hpre hsplit
    · intro hnone
      simpa using goStripThroughAt_of_no_at tov.uri hnone

/-- C5 witness: the amended theorem applied at the `'@'`-bearing concrete
Register; the request-target is `biloxi.com`. -/
theorem register_render_target_amended_witness :
    ∃ p, Register.Render id regAtExample = some p ∧ p.2.uri = "biloxi.com" := by
  rcases hr : Register.Render id regAtExample with - | p
  · exact absurd hr (by decide)
  · have h := register_render_target_amended id regAtExample _ p rfl hr
    refine ⟨p, rfl, ?_⟩
    have := h.2.1 "sip:bob".toList "biloxi.com".toList (by decide) (by decide)
    simpa using this

/-- Under any admissible iteration order, the synthesized fallback contact
renders with an empty parameter suffix and From's value and URI. -/
theorem renderContactLine_fallback
    {ord : List (String × String) → List (String × String)}
    (ha : Admissible ord) (fr : ToFrom) :
    renderContactLine ord (contactFromFrom fr) =
      "Contact: " ++ fr.value ++ " <" ++ fr.uri ++ ">" := by
  unfold renderContactLine
  have hps : paramStringOn (ord (contactFromFrom fr)) = "" := by
    apply paramStringOn_all_reserved
    intro kv hkv
    have hmem : kv ∈ contactFromFrom fr := (ha (contactFromFrom fr)).mem_iff.mp hkv
    have : kv = ("_uri", fr.uri) ∨ kv = ("_value", fr.value) := by
      simpa [contactFromFrom, mapSet] using hmem
    rcases this with hkv1 | hkv1 <;> subst hkv1
    · exact (by decide : strStarts "_uri" "_" = true)
    · exact (by decide : strStarts "_value" "_" = true)
  have hval : mapGet (contactFromFrom fr) "_value" = fr.value := rfl
  have huri : mapGet (contactFromFrom fr) "_uri" = fr.uri := rfl
  have hj : joinWith " " [fr.value, "<" ++ fr.uri ++ ">"] =
      fr.value ++ " " ++ ("<" ++ fr.uri ++ ">") := rfl
  rw [hps, hval, huri, hj]
  apply String.ext
  simp only [String.data_append, List.append_assoc, List.append_nil]
  rfl

/-- C6: after the four fixed lines, the renderer emits exactly one Contact
line per stored contact in stored order; when no contact is stored it
synthesizes exactly one whose value and URI are the From header's. -/
theorem renderHeaders_contact_block
    (ord : List (String × String) → List (String × String))
    (h : CommonHeaders) (c : CallControlHeaders)
    (v0 : String × String) (vrest : List (String × String)) (fr tov : ToFrom)
    (ha : Admissible ord) (hv : c.via = v0 :: vrest) (hf : h.fromH = some fr)
    (ht : h.toH = some tov) :
    ∃ pre post, pre.length = 4 ∧
      (h.contacts = [] →
        renderHeaderLines ord h c =
          some (pre ++ ["Contact: " ++ fr.value ++ " <" ++ fr.uri ++ ">"] ++ post)) ∧
      (h.contacts ≠ [] →
        renderHeaderLines ord h c =
          some (pre ++ h.contacts.map (renderContactLine ord) ++ post)) := by
  have hs := renderHeaderLines_shape ord h c v0 vrest fr tov hv hf ht
  refine ⟨["Via: SIP/2.0/" ++ v0.1 ++ " " ++ v0.2 ++ ";branch=" ++ c.viaBranch,
           "Max-Forwards: " ++ toString (if h.forward = 0 then (70 : Int) else h.forward),
           "From: " ++ fr.value ++ " <" ++ fr.uri ++ ">;tag=" ++ fr.tag,
           if tov.tag ≠ "" then
             "To: " ++ tov.value ++ " <" ++ tov.uri ++ ">" ++ ";tag=" ++ tov.tag
           else "To: " ++ tov.value ++ " <" ++ tov.uri ++ ">"],
          ["Call-ID: " ++ c.callId] ++
            (if h.contentType ≠ "" then
               ["Content-Type: " ++ h.contentType,
                "Content-Length: " ++ toString h.contentLength]
             else []),
          rfl, ?_, ?_⟩
  · intro hc0
    rw [hs, hc0]
    simp [renderContactLine_fallback ha fr, List.append_assoc]
  · intro hc0
    rw [hs, if_neg hc0]
    simp [List.append_assoc]

/-- C6 witness: concrete records with empty Contacts. -/
theorem renderHeaders_contact_block_witness :
    ∃ pre post,
      renderHeaderLines id
          { toH := some { value := "Sally", uri := "sally@nasa.gov" },
            fromH := some { value := "Geoff", uri := "gharding@test.com", tag := "5g" } }
          { via := [("TCP", "192.168.1.2")], viaBranch := "z9", callId := "u1" } =
        some (pre ++ ["Contact: " ++ "Geoff" ++ " <" ++ "gharding@test.com" ++ ">"] ++ post) := by
  obtain ⟨pre, post, -, hemp, -⟩ :=
    renderHeaders_contact_block id
      { toH := some { value := "Sally", uri := "sally@nasa.gov" },
        fromH := some { value := "Geoff", uri := "gharding@test.com", tag := "5g" } }
      { via := [("TCP", "192.168.1.2")], viaBranch := "z9", callId := "u1" }
      ("TCP", "192.168.1.2") [] { value := "Geoff", uri := "gharding@test.com", tag := "5g" }
      { value := "Sally", uri := "sally@nasa.gov" }
      (fun l => List.Perm.refl l) rfl rfl rfl
  exact ⟨pre, post, hemp rfl⟩

/-- Helper: the second rendered header line is the Max-Forwards line with
the zero-to-70 substitution applied. -/
theorem renderLines_fwd_entry
    (ord : List (String × String) → List (String × String))
    (h : CommonHeaders) (c : CallControlHeaders) (L : List String)
    (hL : renderHeaderLines ord h c = some L) :
    L[1]? = some ("Max-Forwards: " ++ toString (if h.forward = 0 then (70 : Int) else h.forward)) := by
  cases hcv : c.via with
  | nil => simp [renderHeaderLines, hcv] at hL
  | cons v0 vrest =>
    cases hf : h.fromH with
    | none => simp [renderHeaderLines, hcv, hf] at hL
    | some fr =>
      cases ht : h.toH with
      | none => simp [renderHeaderLines, hcv, hf, ht] at hL
      | some tov =>
        rw [renderHeaderLines_shape ord h c v0 vrest fr tov hcv hf ht] at hL
        injection hL with hL
        subst hL
        rfl

/-- C7: the second rendered header line is `Max-Forwards: 70` when the
stored Forward is zero, and `Max-Forwards: n` for any non-zero `n`. -/
theorem renderHeaders_max_forwards_line
    (ord : List (String × String) → List (String × String))
    (h : CommonHeaders) (c : CallControlHeaders) (L : List String)
    (hL : renderHeaderLines ord h c = some L) :
    L[1]? = some ("Max-Forwards: " ++ toString (if h.forward = 0 then (70 : Int) else h.forward)) :=
  renderLines_fwd_entry ord h c L hL

/-- C7 witness: zero Forward renders as 70; a non-zero Forward renders
verbatim. -/
theorem renderHeaders_max_forwards_line_witness :
    (∃ L, renderHeaderLines id
        { toH := some { value := "B", uri := "u1" },
          fromH := some { value := "A", uri := "u2", tag := "t" } }
        { via := [("UDP", "hs")], viaBranch := "b", callId := "c1" } =
      some L ∧ L[1]? = some "Max-Forwards: 70") ∧
    (∃ L, renderHeaderLines id
        { toH := some { value := "B", uri := "u1" },
          fromH := some { value := "A", uri := "u2", tag := "t" }, forward := 23 }
        { via := [("UDP", "hs")], viaBranch := "b", callId := "c1" } =
      some L ∧ L[1]? = some "Max-Forwards: 23") := by
  constructor
  · rcases hL : renderHeaderLines id
        { toH := some { value := "B", uri := "u1" },
          fromH := some { value := "A", uri := "u2", tag := "t" } }
        { via := [("UDP", "hs")], viaBranch := "b", callId := "c1" } with - | L
    · exact absurd hL (by decide)
    · refine ⟨L, rfl, ?_⟩
      have hmf := renderHeaders_max_forwards_line id _ _ L hL
      rw [hmf]
      decide
  · rcases hL : renderHeaderLines id
        { toH := some { value := "B", uri := "u1" },
          fromH := some { value := "A", uri := "u2", tag := "t" }, forward := 23 }
        { via := [("UDP", "hs")], viaBranch := "b", callId := "c1" } with - | L
    · exact absurd hL (by decide)
    · refine ⟨L, rfl, ?_⟩
      have hmf := renderHeaders_max_forwards_line id _ _ L hL
      rw [hmf]
      decide

/-- C8: when line `k` of the header block (0-based, counting from the first
line after the request line) is the first whose dispatch fails an integer
parse and every earlier line dispatches cleanly, `parseHeaders` stops there
and returns a `HeaderParseError` whose `line` is `k` and whose `message` is
every input line concatenated with no separator. -/
theorem parseHeaders_first_int_error (lines : List String) (k : Nat)
    (h : CommonHeaders) (c : CallControlHeaders)
    (hk : k < (lines.drop 1).length)
    (hbad : lineClass ((lines.drop 1).getD k "") = .bad)
    (hgood : ∀ j, j < k → lineClass ((lines.drop 1).getD j "") = .good) :
    ∃ st, parseHeaders lines h c =
      some (some { message := goJoin0 lines, line := k }, st) := by
  obtain ⟨st', h'⟩ := phGo_first_error (goJoin0 lines) (lines.drop 1) k 0
    { h := h, c := c } hk hbad hgood
  exact ⟨st', by unfold parseHeaders; simpa using h'⟩

/-- C8 witness: `Max-Forwards: abc` on block line 1, after one clean
header line. -/
theorem parseHeaders_first_int_error_witness :
    ∃ st, parseHeaders ["INVITE sip:x SIP/2.0", "Call-ID: c7", "Max-Forwards: abc"] {} {} =
      some (some { message := goJoin0 ["INVITE sip:x SIP/2.0", "Call-ID: c7", "Max-Forwards: abc"],
                   line := 1 }, st) := by
  refine parseHeaders_first_int_error
    ["INVITE sip:x SIP/2.0", "Call-ID: c7", "Max-Forwards: abc"] 1 {} {}
    (by decide) (by decide) ?_
  intro j hj
  have hj0 : j = 0 := by omega
  subst hj0
  decide

/-- Concrete Invite with a two-parameter contact for the order-dependence
counterexample. -/
def cexContact : Contact := [("_value", "A"), ("_uri", "u"), ("a", "1"), ("b", "2")]

/-- Concrete Invite holding `cexContact`. -/
def cexInvite : Invite :=
  { headers :=
      { toH := some { value := "Bob", uri := "sip:b@c" },
        fromH := some { value := "Alice", uri := "sip:a@b", tag := "t1" },
        contacts := [cexContact] },
    control := { via := [("UDP", "h")], viaBranch := "br", callId := "cid", sequence := 1 } }

/-- C9 counterexample: with a stored contact carrying two non-reserved
parameters, two renders of the very same unmutated Invite differ byte-wise
once the runtime's map iteration orders differ — `List.reverse` is a
permutation of the stored entries, hence an iteration order Go is free to
produce, and it yields a different Contact line than the insertion order. -/
theorem render_map_order_dependent_cex :
    Invite.Render List.reverse cexInvite ≠ Invite.Render id cexInvite ∧
    (List.reverse cexContact).Perm cexContact := by
  constructor
  · decide
  · exact cexContact.reverse_perm

/-- C9 (amended): rendering twice yields byte-identical output whenever
every stored contact carries at most one non-reserved parameter (this
includes every message whose Contacts were parsed without parameters or
synthesized); with two or more parameters on one contact the byte-level
output depends on the map iteration order, which Go does not fix. -/
theorem render_idempotent_small_params
    (ord1 ord2 : List (String × String) → List (String × String))
    (h1 : Admissible ord1) (h2 : Admissible ord2) :
    (∀ (i : Invite), SmallParams i.headers.contacts →
      ∀ p, Invite.Render ord1 i = some p → Invite.Render ord2 p.2 = some p) ∧
    (∀ (r : Register), SmallParams r.headers.contacts →
      ∀ p, Register.Render ord1 r = some p → Register.Render ord2 p.2 = some p) := by
  constructor
  · intro i hsm p hp
    unfold Invite.Render at hp ⊢
    cases ht : i.headers.toH with
    | none => rw [ht] at hp; exact absurd hp (by simp)
    | some tov =>
      rw [ht] at hp
      cases hr : renderHeaders ord1 i.headers i.control with
      | none => rw [hr] at hp; exact absurd hp (by simp)
      | some body =>
        rw [hr] at hp
        simp only [Option.map_some', Option.some.injEq] at hp
        subst hp
        rw [ht, ← renderHeaders_ord_eq h1 h2 i.headers i.control hsm, hr]
        rfl
  · intro r hsm p hp
    unfold Register.Render at hp ⊢
    cases ht : r.headers.toH with
    | none => rw [ht] at hp; exact absurd hp (by simp)
    | some tov =>
      rw [ht] at hp
      cases hr : renderHeaders ord1 r.headers r.control with
      | none => rw [hr] at hp; exact absurd hp (by simp)
      | some body =>
        rw [hr] at hp
        simp only [Option.map_some', Option.some.injEq] at hp
        subst hp
        rw [show ({ r with uri := goStripThroughAt tov.uri } : Register).headers.toH =
          r.headers.toH from rfl, ht]
        rw [show ({ r with uri := goStripThroughAt tov.uri } : Register).headers =
          r.headers from rfl]
        rw [show ({ r with uri := goStripThroughAt tov.uri } : Register).control =
          r.control from rfl]
        rw [← renderHeaders_ord_eq h1 h2 r.headers r.control hsm, hr]
        rfl

/-- Concrete Invite with a single-parameter contact for the idempotence
witness. -/
def idemInvite : Invite :=
  { headers :=
      { toH := some { value := "Bob", uri := "sip:b@c" },
        fromH := some { value := "Alice", uri := "sip:a@b", tag := "t1" },
        contacts := [[("_value", "A"), ("_uri", "u"), ("q", "1")]] },
    control := { via := [("UDP", "h")], viaBranch := "br", callId := "cid", sequence := 1 } }

/-- C9 witness: the amended theorem applied at a concrete Invite whose one
contact has one parameter, with the two renders using different admissible
iteration orders. -/
theorem render_idempotent_small_params_witness :
    ∃ p, Invite.Render id idemInvite = some p ∧
      Invite.Render List.reverse p.2 = some p := by
  obtain ⟨hi, -⟩ := render_idempotent_small_params id List.reverse
    (fun l => List.Perm.refl l) (fun l => l.reverse_perm)
  rcases hp : Invite.Render id idemInvite with - | p
  · exact absurd hp (by decide)
  · exact ⟨p, rfl, hi idemInvite (by unfold SmallParams; decide) p hp⟩

/-- C10: `Invite.Render` returns the receiver unchanged (the header records
go to `renderHeaders` by value), even while the output substitutes
`Max-Forwards: 70` for a stored zero Forward and synthesizes a Contact line
for empty Contacts. -/
theorem invite_render_frame (ord : List (String × String) → List (String × String))
    (ha : Admissible ord) (i : Invite) (p : String × Invite)
    (h : Invite.Render ord i = some p) :
    p.2 = i ∧
    (i.headers.forward = 0 → ∀ L, renderHeaderLines ord i.headers i.control = some L →
      L[1]? = some "Max-Forwards: 70") ∧
    (i.headers.contacts = [] → ∀ fr, i.headers.fromH = some fr →
      ∀ L, renderHeaderLines ord i.headers i.control = some L →
        ("Contact: " ++ fr.value ++ " <" ++ fr.uri ++ ">") ∈ L) := by
  refine ⟨?_, ?_, ?_⟩
  · unfold Invite.Render at h
    cases ht : i.headers.toH with
    | none => rw [ht] at h; exact absurd h (by simp)
    | some tov =>
      rw [ht] at h
      cases hr : renderHeaders ord i.headers i.control with
      | none => rw [hr] at h; exact absurd h (by simp)
      | some body =>
        rw [hr] at h
        simp only [Option.map_some', Option.some.injEq] at h
        rw [← h]
  · intro hfwd L hL
    have := renderLines_fwd_entry ord i.headers i.control L hL
    rw [this, hfwd]
    simp only [if_pos rfl]
    exact congrArg some (by decide)
  · intro hc0 fr hf L hL
    cases hcv : i.control.via with
    | nil => simp [renderHeaderLines, hcv] at hL
    | cons v0 vrest =>
      cases ht : i.headers.toH with
      | none => simp [renderHeaderLines, hcv, hf, ht] at hL
      | some tov =>
        rw [renderHeaderLines_shape ord i.headers i.control v0 vrest fr tov hcv hf ht] at hL
        injection hL with hL
        subst hL
        rw [hc0]
        simp [renderContactLine_fallback ha fr]

/-- Concrete Invite with zero Forward and no Contacts for the frame
witness. -/
def frameInvite : Invite :=
  { headers :=
      { toH := some { value := "Bob", uri := "sip:b@c" },
        fromH := some { value := "Alice", uri := "sip:a@b", tag := "t1" } },
    control := { via := [("UDP", "h")], viaBranch := "br", callId := "cid", sequence := 3 } }

/-- C10 witness: the frame theorem applied at a concrete Invite with
`Forward = 0` and empty Contacts. -/
theorem invite_render_frame_witness :
    ∃ p, Invite.Render id frameInvite = some p ∧ p.2 = frameInvite ∧
      (∀ L, renderHeaderLines id frameInvite.headers frameInvite.control = some L →
        L[1]? = some "Max-Forwards: 70" ∧
        ("Contact: " ++ "Alice" ++ " <" ++ "sip:a@b" ++ ">") ∈ L) := by
  rcases hp : Invite.Render id frameInvite with - | p
  · exact absurd hp (by decide)
  · obtain ⟨hfr, hmf, hct⟩ := invite_render_frame id (fun l => List.Perm.refl l)
      frameInvite p hp
    refine ⟨p, rfl, hfr, ?_⟩
    intro L hL
    exact ⟨hmf rfl L hL, hct rfl { value := "Alice", uri := "sip:a@b", tag := "t1" } rfl L hL⟩

end Slurp
